import Mathlib

/-!
Verification of the linear-referencing toolbox scripts.

The Python sources embedded here are the module-level functions of
`Scripts/createPointEventTable.py`, `Scripts/create_route_by_length.py` and
`Scripts/stationPointsAndCrossSections.py`: the float range generator
`frange`, the field lookup `get_field`, the event-table builder
`create_point_event_table`, the route builder `create_route_by_length` and
the cross-section builder `create_cross_section`.  Numeric values (measures,
intervals, lengths) are modelled as rationals; station coordinates and
angles, which flow through trigonometric functions, as reals.  The external
geoprocessing engine (arcpy) is modelled by explicit data: a dataset is a
field list plus a row list, and engine calls that only create or delete
datasets are recorded as an operation trace where a claim is about them.
-/

namespace ALRT

/-- One step of the `frange` while loop (createPointEventTable.py lines
22-30).  The loop body is `yield r; if step > 0: r += step else: r -= step`,
guarded by `r < stop`; `fuel` bounds the number of iterations and is chosen
large enough below (`frangeFuel`) that it never cuts the loop short for a
nonzero step. -/
def frangeAux : ℕ → ℚ → ℚ → ℚ → List ℚ
  | 0, _, _, _ => []
  | fuel + 1, r, stop, step =>
    if r < stop then
      r :: frangeAux fuel (if 0 < step then r + step else r - step) stop step
    else []

/-- Iteration bound for `frange`: one more than the floor of
`(stop - start) / |step|`.  For `step ≠ 0` this exceeds the number of loop
iterations, so `frangeAux` below runs the loop to completion. -/
def frangeFuel (start stop step : ℚ) : ℕ :=
  (((stop - start) / |step|).floor).toNat + 1

/-- `frange(start, stop, step)` from createPointEventTable.py lines 22-30:
starts at `r = start` and, while `r < stop`, yields `r` and then adds `step`
when `step > 0`, otherwise subtracts `step`. -/
def frange (start stop step : ℚ) : List ℚ :=
  frangeAux (frangeFuel start stop step) start stop step

/-- Descriptor of one attribute field of a dataset, as exposed by
`arcpy.Describe(dataset).fields`: the Python code reads `f.name`, `f.type`
and `f.length`. -/
structure FieldDesc where
  name : String
  type : String
  length : ℕ
deriving DecidableEq

/-- One route feature row as read by the SearchCursor of
`create_point_event_table`: the route-identifier attribute together with the
geometry's first and last vertex M-values (`line.firstPoint.M`,
`line.lastPoint.M`). -/
structure RouteRow where
  route_id : String
  firstM : ℚ
  lastM : ℚ
deriving DecidableEq

/-- A route feature dataset: its field descriptors (what
`arcpy.Describe` reports) and its rows. -/
structure RouteDataset where
  fields : List FieldDesc
  rows : List RouteRow
deriving DecidableEq

/-- Recursion for `pyIn`: `xs` occurs contiguously in the second list. -/
def pyInAux (xs : List Char) : List Char → Bool
  | [] => xs.isEmpty
  | c :: t => xs.isPrefixOf (c :: t) || pyInAux xs t

/-- Python's `sub in s` on strings: `sub` is a contiguous substring of `s`. -/
def pyIn (sub s : String) : Bool :=
  pyInAux sub.toList s.toList

/-- `get_field(dataset, field_name)` from createPointEventTable.py lines
16-19: `[f for f in arcpy.Describe(dataset).fields if f.name in field_name][0]`.
The dataset's field list is passed directly; taking `[0]` of an empty
comprehension raises `IndexError`, modelled as the error branch. -/
def get_field (dataset_fields : List FieldDesc) (field_name : String) :
    Except String FieldDesc :=
  match dataset_fields.filter (fun f => pyIn f.name field_name) with
  | [] => Except.error "IndexError: list index out of range"
  | f :: _ => Except.ok f

/-- The output event table written by `create_point_event_table`: the schema
built by CreateTable/AddField and the (route id, measure) rows inserted by
the cursor loop. -/
structure EventTable where
  schema : List FieldDesc
  rows : List (String × ℚ)
deriving DecidableEq

/-- `create_point_event_table` from createPointEventTable.py lines 33-69:
looks up the route-id field (an unhandled `IndexError` from `get_field`
propagates, so nothing is created then), creates the output table with the
route-id field (type and length copied from the field `get_field` matched,
under the requested name) and a DOUBLE `Measure` field (no explicit length;
recorded as 0), then opens
`arcpy.da.SearchCursor(in_routes, [route_id_field_name, "SHAPE@"])` on the
literal requested name: when that name is not an actual field of the input,
the cursor raises a RuntimeError (after the output table was created; the
run trace `create_point_event_table_run` records that ordering), otherwise
for every route row one record is inserted per value of
`frange(firstPoint.M, lastPoint.M, measure_interval)`. -/
def create_point_event_table (in_routes : RouteDataset)
    (route_id_field_name : String) (measure_interval : ℚ) :
    Except String EventTable :=
  match get_field in_routes.fields route_id_field_name with
  | Except.error e => Except.error e
  | Except.ok route_id_field =>
    if in_routes.fields.any (fun f => f.name == route_id_field_name) then
      Except.ok
        { schema := [⟨route_id_field_name, route_id_field.type, route_id_field.length⟩,
                     ⟨"Measure", "DOUBLE", 0⟩],
          rows := in_routes.rows.flatMap (fun row =>
            (frange row.firstM row.lastM measure_interval).map
              (fun measure => (row.route_id, measure))) }
    else
      Except.error "RuntimeError: A column was specified that does not exist"

/-- One input line feature of `create_route_by_length`: identifier,
engine-computed total 2D geometric length of all its parts (the
`SHAPE@LENGTH` cursor token), its number of geometry parts, and a
pre-existing measure attribute pair carried by the input (never read by the
code; kept in the model to express independence from it). -/
structure LineFeature where
  route_id : String
  shape_length : ℚ
  part_count : ℕ
  m_first : ℚ
  m_last : ℚ
deriving DecidableEq

/-- A row of the in-memory copy after AddField and the UpdateCursor loop of
`create_route_by_length`. -/
structure MeasuredLine where
  route_id : String
  fromMeasure : ℚ
  toMeasure : ℚ
  part_count : ℕ
deriving DecidableEq

/-- The UpdateCursor body of create_route_by_length.py lines 35-39 with
`update_fields = [FromMeasure, ToMeasure, SHAPE@LENGTH]`: `row[0] = 0;
row[1] = row[2]`. -/
def update_measure_row (f : LineFeature) : MeasuredLine :=
  ⟨f.route_id, 0, f.shape_length, f.part_count⟩

/-- A measured route: identifier and the measure-range endpoints carried by
the route geometry (first and last vertex M-values). -/
structure Route where
  route_id : String
  first_measure : ℚ
  last_measure : ℚ
deriving DecidableEq

/-- The external engine's `arcpy.lr.CreateRoutes` with
`measure_source='TWO_FIELDS'`, as described in spec section 6: each line
becomes a measured route whose measures run from its `FromMeasure` field
value to its `ToMeasure` field value. -/
def lr_CreateRoutes (lines : List MeasuredLine) : List Route :=
  lines.map (fun l => ⟨l.route_id, l.fromMeasure, l.toMeasure⟩)

/-- `create_route_by_length` from create_route_by_length.py lines 15-50:
copies the input, sets `FromMeasure := 0` and `ToMeasure := SHAPE@LENGTH`
on every row, and delegates to CreateRoutes (TWO_FIELDS). -/
def create_route_by_length (in_features : List LineFeature) : List Route :=
  lr_CreateRoutes (in_features.map update_measure_row)

/-- One station point row as read by the SearchCursor of
`create_cross_section` with fields `[SHAPE@XY, route_id, Measure,
LOC_ANGLE]`. -/
structure StationRow where
  x : ℝ
  y : ℝ
  route_id : String
  measure : ℚ
  loc_angle : ℝ

/-- One output row of `create_cross_section`: the three-point polyline
geometry and the copied route id and measure. -/
structure CrossSectionRow where
  geometry : List (ℝ × ℝ)
  route_id : String
  measure : ℚ

/-- Python's `math.radians`: degrees times pi over 180. -/
noncomputable def radians (d : ℝ) : ℝ :=
  d * (Real.pi / 180)

/-- The comparison behind the cursor's
`ORDER BY route_id, Measure` clause. -/
def stationLe (a b : StationRow) : Bool :=
  match compare a.route_id b.route_id with
  | Ordering.lt => true
  | Ordering.eq => decide (a.measure ≤ b.measure)
  | Ordering.gt => false

/-- Ordered insertion used by `sortStations`. -/
def insertStation (a : StationRow) : List StationRow → List StationRow
  | [] => [a]
  | b :: t => if stationLe a b then a :: b :: t else b :: insertStation a t

/-- The read order imposed by the SearchCursor's
`ORDER BY route_id, Measure` sql clause. -/
def sortStations : List StationRow → List StationRow
  | [] => []
  | a :: t => insertStation a (sortStations t)

/-- The loop body of create_cross_section (stationPointsAndCrossSections.py
lines 191-206): for a station at `(mid_x, mid_y)` with `LOC_ANGLE` degrees,
`bearing = radians(angle)`, `from = mid + distance*(cos, sin)(bearing)`,
`to = mid - distance*(cos, sin)(bearing)`, and the inserted polyline is the
three-point array `[from_point, mid_point, to_point]`. -/
noncomputable def create_cross_section_row (distance : ℝ) (row : StationRow) :
    CrossSectionRow :=
  let bearing := radians row.loc_angle
  let from_x := row.x + distance * Real.cos bearing
  let from_y := row.y + distance * Real.sin bearing
  let to_x := row.x - distance * Real.cos bearing
  let to_y := row.y - distance * Real.sin bearing
  { geometry := [(from_x, from_y), (row.x, row.y), (to_x, to_y)],
    route_id := row.route_id, measure := row.measure }

/-- `create_cross_section` from stationPointsAndCrossSections.py lines
165-206, restricted to the rows it inserts: `distance = width/2.0` is
computed once, and the cursor loop emits one three-point polyline row per
station, in `ORDER BY route_id, Measure` order.  No validation of the width
is performed. -/
noncomputable def create_cross_section (cross_section_width : ℝ)
    (stations : List StationRow) : List CrossSectionRow :=
  (sortStations stations).map (create_cross_section_row (cross_section_width / 2))

/-- Engine calls performed by the scripts that create or remove datasets,
used to reason about which temporaries are cleaned up on which paths. -/
inductive GPOp where
  | createUniqueName (base workspace : String)
  | copyFeatures (src dst : String)
  | addField (table field : String)
  | updateMeasures (table : String)
  | createRoutes (lines out : String)
  | createTable (out : String)
  | addEventRows (table : String)
  | makeRouteEventLayer (routes table layer : String)
  | createFeatureclass (out : String)
  | addXSRows (table : String)
  | delete (dataset : String)
deriving DecidableEq

/-- The unique in-memory name returned by
`arcpy.CreateUniqueName('theLine', 'in_memory')`. -/
def theLineName : String := "in_memory/theLine"

/-- The unique in-memory name returned by
`arcpy.CreateUniqueName('event_table', 'in_memory')`. -/
def eventTableName : String := "in_memory/event_table"

/-- Engine-call trace of `create_route_by_length` (lines 15-50).
`createRoutesOk` says whether the engine's CreateRoutes call succeeds; when
it raises, the exception propagates (there is no try/finally), so the trace
stops there and the returned flag is false.  The `Delete` of the in-memory
line is the last statement and only runs on the success path. -/
def create_route_by_length_trace (in_features route_feature_class : String)
    (createRoutesOk : Bool) : List GPOp × Bool :=
  let pre := [GPOp.createUniqueName "theLine" "in_memory",
              GPOp.copyFeatures in_features theLineName,
              GPOp.addField theLineName "FromMeasure",
              GPOp.addField theLineName "ToMeasure",
              GPOp.updateMeasures theLineName,
              GPOp.createRoutes theLineName route_feature_class]
  if createRoutesOk then (pre ++ [GPOp.delete theLineName], true) else (pre, false)

/-- Engine-call trace of `create_point_event_table` (lines 33-69): create
the output table, add the two fields, insert the event rows.  It deletes
nothing. -/
def create_point_event_table_trace (route_id_field_name out_table : String) :
    List GPOp :=
  [GPOp.createTable out_table,
   GPOp.addField out_table route_id_field_name,
   GPOp.addField out_table "Measure",
   GPOp.addEventRows out_table]

/-- Engine-call trace of one run of `create_point_event_table` (lines
33-69), failure paths included: the `IndexError` from `get_field` is raised
before anything is created, so its trace is empty; otherwise the output
table and its two fields are created first, and only then does
`arcpy.da.SearchCursor(in_routes, [route_id_field_name, "SHAPE@"])` raise a
RuntimeError when the literal requested name is not a field of the input,
so the event rows are inserted only when it is.  Returns the engine calls
performed and whether the function ran to completion. -/
def create_point_event_table_run (in_routes : RouteDataset)
    (route_id_field_name out_table : String) : List GPOp × Bool :=
  match get_field in_routes.fields route_id_field_name with
  | Except.error _ => ([], false)
  | Except.ok _ =>
    let pre := [GPOp.createTable out_table,
                GPOp.addField out_table route_id_field_name,
                GPOp.addField out_table "Measure"]
    if in_routes.fields.any (fun f => f.name == route_id_field_name) then
      (pre ++ [GPOp.addEventRows out_table], true)
    else
      (pre, false)

/-- Engine-call trace of `create_cross_section` (lines 165-206): create the
output feature class, add the two fields, insert the cross-section rows.
It deletes nothing. -/
def create_cross_section_trace (route_id_field_name out_fc : String) :
    List GPOp :=
  [GPOp.createFeatureclass out_fc,
   GPOp.addField out_fc route_id_field_name,
   GPOp.addField out_fc "Measure",
   GPOp.addXSRows out_fc]

/-- Engine-call trace of `StationPointsAndCrossSections.execute`
(stationPointsAndCrossSections.py lines 316-350) on a successful run: build
the route, create the unique in-memory event table name, build the event
table there, locate the events, copy the located points out, build the
cross sections, return.  The method contains no Delete call at all. -/
def stationPointsAndCrossSections_execute_trace
    (in_line_features route_id_field out_route out_station out_xs : String) :
    List GPOp :=
  (create_route_by_length_trace in_line_features out_route true).1
    ++ [GPOp.createUniqueName "event_table" "in_memory"]
    ++ create_point_event_table_trace route_id_field eventTableName
    ++ [GPOp.makeRouteEventLayer out_route eventTableName "Point Events",
        GPOp.copyFeatures "Point Events" out_station]
    ++ create_cross_section_trace route_id_field out_xs

/-- Sample route dataset: one text field `RID` and one route `A` measured
from 0 to 9. -/
def sampleRoutes : RouteDataset :=
  ⟨[⟨"RID", "String", 10⟩], [⟨"A", 0, 9⟩]⟩

/-- The event table `create_point_event_table` produces from `sampleRoutes`
at interval 3. -/
def sampleEventTable : EventTable :=
  ⟨[⟨"RID", "String", 10⟩, ⟨"Measure", "DOUBLE", 0⟩],
   [("A", 0), ("A", 3), ("A", 6)]⟩

/-- Dataset whose only field is named `ID`; the name `IDX` is unknown on it,
yet `ID` is a substring of `IDX`. -/
def unknownFieldDS : RouteDataset :=
  ⟨[⟨"ID", "String", 10⟩], []⟩

/-- A two-part line feature of total length 7 with a pre-existing measure
attribute pair (5, 9). -/
def multipartFeature : LineFeature :=
  ⟨"A", 7, 2, 5, 9⟩

/-- A single-part 100-unit line feature with a stale measure attribute
pair. -/
def sampleLine : LineFeature :=
  ⟨"A", 100, 1, 3, 42⟩

/-- A station at the origin of route `A`, measure 0, bearing 0 degrees. -/
def sampleStation : StationRow :=
  ⟨0, 0, "A", 0, 0⟩

end ALRT

namespace ALRT

theorem ratFloor_eq_intFloor (q : ℚ) : q.floor = ⌊q⌋ := by
  rw [Rat.floor_def', Rat.floor_def]

theorem ceil_div_nonpos_toNat {a step : ℚ} (hstep : 0 < step) (h : a ≤ 0) :
    (⌈a / step⌉).toNat = 0 := by
  have hq : a / step ≤ 0 := div_nonpos_of_nonpos_of_nonneg h hstep.le
  have : ⌈a / step⌉ ≤ 0 := by
    exact_mod_cast Int.ceil_le.mpr (by exact_mod_cast hq)
  omega

theorem frangeAux_pos_eq (stop step : ℚ) (hstep : 0 < step) :
    ∀ (fuel : ℕ) (r : ℚ), stop - r ≤ fuel * step →
      frangeAux fuel r stop step
        = (List.range (⌈(stop - r) / step⌉.toNat)).map (fun k : ℕ => r + (k : ℚ) * step) := by
  intro fuel
  induction fuel with
  | zero =>
    intro r h
    simp only [Nat.cast_zero, zero_mul] at h
    rw [ceil_div_nonpos_toNat hstep h]
    rfl
  | succ n ih =>
    intro r h
    by_cases hr : r < stop
    · have hq : 0 < (stop - r) / step := div_pos (by linarith) hstep
      have hN : 0 < ⌈(stop - r) / step⌉ := Int.ceil_pos.mpr hq
      have hstep' : (stop - (r + step)) / step = (stop - r) / step - 1 := by
        rw [show stop - (r + step) = (stop - r) - step by ring, sub_div,
          div_self hstep.ne']
      have hN' : ⌈(stop - (r + step)) / step⌉ = ⌈(stop - r) / step⌉ - 1 := by
        rw [hstep', Int.ceil_sub_one]
      have hfuel : stop - (r + step) ≤ n * step := by
        have : ((n : ℚ) + 1) * step = n * step + step := by ring
        push_cast at h
        linarith
      have hNt : ⌈(stop - r) / step⌉.toNat
          = ⌈(stop - (r + step)) / step⌉.toNat + 1 := by omega
      simp only [frangeAux, if_pos hr, if_pos hstep]
      rw [ih (r + step) hfuel, hNt, List.range_succ_eq_map, List.map_cons,
        List.map_map]
      refine List.cons_eq_cons.mpr ⟨by push_cast; ring, ?_⟩
      apply List.map_congr_left
      intro k _
      simp only [Function.comp_apply, Nat.succ_eq_add_one]
      push_cast
      ring
    · have hle : stop - r ≤ 0 := by
        have := not_lt.mp hr
        linarith
      rw [ceil_div_nonpos_toNat hstep hle]
      cases n <;> simp [frangeAux, hr]

theorem frange_pos_eq (start stop step : ℚ) (hstep : 0 < step) :
    frange start stop step
      = (List.range (⌈(stop - start) / step⌉.toNat)).map (fun k : ℕ => start + (k : ℚ) * step) := by
  apply frangeAux_pos_eq stop step hstep
  have habs : |step| = step := abs_of_pos hstep
  have hcancel : (stop - start) / step * step = stop - start :=
    div_mul_cancel₀ _ hstep.ne'
  unfold frangeFuel
  rw [habs, ratFloor_eq_intFloor]
  set q : ℚ := (stop - start) / step with hqdef
  rcases le_or_lt q 0 with hq | hq
  · have h1 : stop - start ≤ 0 := by nlinarith
    have h2 : (0 : ℚ) < ((⌊q⌋.toNat : ℚ) + 1) * step := by positivity
    push_cast
    linarith
  · have h0 : (0 : ℤ) ≤ ⌊q⌋ := Int.floor_nonneg.mpr hq.le
    have h1 : ((⌊q⌋.toNat : ℚ)) = ((⌊q⌋ : ℤ) : ℚ) := by
      exact_mod_cast Int.toNat_of_nonneg h0
    have h2 : q < (⌊q⌋ : ℚ) + 1 := Int.lt_floor_add_one q
    have h3 : q * step < ((⌊q⌋ : ℚ) + 1) * step := by
      exact mul_lt_mul_of_pos_right h2 hstep
    push_cast
    rw [h1]
    nlinarith

theorem mem_frange_pos {start stop step x : ℚ} (hstep : 0 < step) :
    x ∈ frange start stop step ↔ ∃ k : ℕ, x = start + (k : ℚ) * step ∧ x < stop := by
  rw [frange_pos_eq _ _ _ hstep]
  simp only [List.mem_map, List.mem_range]
  constructor
  · rintro ⟨k, hk, rfl⟩
    refine ⟨k, rfl, ?_⟩
    have h1 : (k : ℤ) < ⌈(stop - start) / step⌉ := Int.lt_toNat.mp hk
    have h2 : ((k : ℤ) : ℚ) < (stop - start) / step := Int.lt_ceil.mp h1
    rw [lt_div_iff₀ hstep] at h2
    push_cast at h2
    linarith
  · rintro ⟨k, rfl, hlt⟩
    refine ⟨k, ?_, rfl⟩
    rw [Int.lt_toNat, Int.lt_ceil, lt_div_iff₀ hstep]
    push_cast
    linarith

theorem frange_pos_lower {start stop step x : ℚ} (hstep : 0 < step)
    (hx : x ∈ frange start stop step) : start ≤ x ∧ x < stop := by
  obtain ⟨k, rfl, hlt⟩ := (mem_frange_pos hstep).mp hx
  refine ⟨?_, hlt⟩
  have : (0 : ℚ) ≤ (k : ℚ) * step := by positivity
  linarith

theorem frange_pos_chain (start stop step : ℚ) (hstep : 0 < step) :
    List.Chain' (· < ·) (frange start stop step) := by
  rw [frange_pos_eq _ _ _ hstep, List.chain'_iff_pairwise]
  refine List.Pairwise.map _ ?_ (List.pairwise_lt_range _)
  intro a b hab
  have : (a : ℚ) * step < (b : ℚ) * step := by
    have hab' : (a : ℚ) < (b : ℚ) := by exact_mod_cast hab
    exact mul_lt_mul_of_pos_right hab' hstep
  linarith

theorem frange_pos_empty (start stop step : ℚ) (hstep : 0 < step)
    (h : stop ≤ start) : frange start stop step = [] := by
  rw [frange_pos_eq _ _ _ hstep, ceil_div_nonpos_toNat hstep (by linarith)]
  rfl

theorem frangeAux_neg_eq_abs (stop step : ℚ) (hstep : step < 0) :
    ∀ (fuel : ℕ) (r : ℚ),
      frangeAux fuel r stop step = frangeAux fuel r stop (-step) := by
  intro fuel
  induction fuel with
  | zero => intro r; rfl
  | succ n ih =>
    intro r
    by_cases hr : r < stop
    · have h1 : ¬ (0 < step) := not_lt.mpr hstep.le
      have h2 : 0 < -step := neg_pos.mpr hstep
      simp only [frangeAux, if_pos hr, if_neg h1, if_pos h2, sub_eq_add_neg]
      rw [ih]
    · simp [frangeAux, hr]

theorem frange_neg_eq_abs (start stop step : ℚ) (hstep : step < 0) :
    frange start stop step = frange start stop (-step) := by
  unfold frange frangeFuel
  rw [abs_neg]
  exact frangeAux_neg_eq_abs stop step hstep _ start

theorem frange_zero_nine_three : frange 0 9 3 = [0, 3, 6] := by
  have hq : ((9 : ℚ) - 0) / 3 = 3 := by norm_num
  have hceil : (⌈((9 : ℚ) - 0) / 3⌉).toNat = 3 := by
    rw [hq, show ⌈(3 : ℚ)⌉ = 3 by norm_num]
    rfl
  rw [frange_pos_eq 0 9 3 (by norm_num), hceil,
    show List.range 3 = [0, 1, 2] from rfl]
  norm_num

theorem frange_zero_nine_negthree : frange 0 9 (-3) = [0, 3, 6] := by
  have h := frange_neg_eq_abs 0 9 (-3) (by norm_num)
  rw [show -(-3 : ℚ) = 3 by norm_num] at h
  rw [h, frange_zero_nine_three]

theorem insertStation_perm (a : StationRow) (l : List StationRow) :
    (insertStation a l).Perm (a :: l) := by
  induction l with
  | nil => exact List.Perm.refl _
  | cons b t ih =>
    by_cases h : stationLe a b
    · simp [insertStation, h]
    · simp only [insertStation, if_neg h]
      exact (ih.cons b).trans (List.Perm.swap a b t)

theorem sortStations_perm (l : List StationRow) : (sortStations l).Perm l := by
  induction l with
  | nil => exact List.Perm.refl _
  | cons a t ih => exact (insertStation_perm a (sortStations t)).trans (ih.cons a)

theorem sortStations_length (l : List StationRow) :
    (sortStations l).length = l.length :=
  (sortStations_perm l).length_eq

theorem get_field_eq_find (dataset_fields : List FieldDesc) (field_name : String) :
    get_field dataset_fields field_name
      = match dataset_fields.find? (fun f => pyIn f.name field_name) with
        | some f => Except.ok f
        | none => Except.error "IndexError: list index out of range" := by
  induction dataset_fields with
  | nil => rfl
  | cons f t ih =>
    unfold get_field
    rw [List.filter_cons, List.find?_cons]
    cases h : pyIn f.name field_name with
    | true => simp
    | false =>
      simp only [Bool.false_eq_true, if_false]
      exact ih

theorem isPrefixOf_self (l : List Char) : l.isPrefixOf l = true := by
  induction l with
  | nil => rfl
  | cons c t ih => simp [List.isPrefixOf, ih]

theorem pyIn_refl (s : String) : pyIn s s = true := by
  unfold pyIn
  cases s.toList with
  | nil => rfl
  | cons c t => simp [pyInAux, isPrefixOf_self]

theorem exact_match_pyIn {fields : List FieldDesc} {name : String}
    (h : ∃ f ∈ fields, f.name = name) :
    ∃ f ∈ fields, pyIn f.name name = true := by
  obtain ⟨f, hf, he⟩ := h
  refine ⟨f, hf, ?_⟩
  rw [← he]
  exact pyIn_refl f.name

theorem any_name_beq_iff (fields : List FieldDesc) (name : String) :
    fields.any (fun f => f.name == name) = true ↔ ∃ f ∈ fields, f.name = name := by
  rw [List.any_eq_true]
  simp

theorem get_field_error_msg {fields : List FieldDesc} {name e : String}
    (h : get_field fields name = Except.error e) :
    e = "IndexError: list index out of range"
    ∧ ∀ f ∈ fields, pyIn f.name name = false := by
  rw [get_field_eq_find] at h
  cases hf : fields.find? (fun f => pyIn f.name name) with
  | none =>
    rw [hf] at h
    injection h with h'
    refine ⟨h'.symm, ?_⟩
    intro f hfm
    have := List.find?_eq_none.mp hf f hfm
    simpa using this
  | some f =>
    rw [hf] at h
    exact absurd h (by simp)

theorem get_field_ok_sub {fields : List FieldDesc} {name : String}
    {fld : FieldDesc} (h : get_field fields name = Except.ok fld) :
    ∃ f ∈ fields, pyIn f.name name = true := by
  rw [get_field_eq_find] at h
  cases hf : fields.find? (fun f => pyIn f.name name) with
  | none =>
    rw [hf] at h
    exact absurd h (by simp)
  | some f =>
    refine ⟨f, List.mem_of_find?_eq_some hf, ?_⟩
    have := List.find?_some hf
    simpa using this

/-- Claim C1: for every start, stop and step > 0, `frange` yields exactly
the ascending sequence of all values start + k*step that are strictly less
than stop; stop itself is never yielded even when it is an exact multiple of
step from start; and when start ≥ stop the sequence is empty. -/
theorem claim_C1_frange_pos (start stop step : ℚ) (hstep : 0 < step) :
    (∀ x : ℚ, x ∈ frange start stop step
        ↔ ∃ k : ℕ, x = start + (k : ℚ) * step ∧ x < stop)
    ∧ List.Chain' (· < ·) (frange start stop step)
    ∧ stop ∉ frange start stop step
    ∧ (stop ≤ start → frange start stop step = []) := by
  refine ⟨fun x => mem_frange_pos hstep, frange_pos_chain _ _ _ hstep, ?_,
    frange_pos_empty _ _ _ hstep⟩
  intro hmem
  obtain ⟨k, _, hlt⟩ := (mem_frange_pos hstep).mp hmem
  exact lt_irrefl _ hlt

/-- Witness for claim C1 at `frange(0, 9, 3)`. -/
theorem claim_C1_frange_pos_witness :
    (0 : ℚ) < 3
    ∧ ((∀ x : ℚ, x ∈ frange 0 9 3 ↔ ∃ k : ℕ, x = 0 + (k : ℚ) * 3 ∧ x < 9)
        ∧ List.Chain' (· < ·) (frange 0 9 3)
        ∧ (9 : ℚ) ∉ frange 0 9 3
        ∧ ((9 : ℚ) ≤ 0 → frange 0 9 3 = [])) :=
  ⟨by decide, claim_C1_frange_pos 0 9 3 (by decide)⟩

/-- Claim C2 counterexample: with start = 10, stop = 0, step = -3 the
claimed descending behaviour would yield 10, 7, 4, 1 (10 is strictly greater
than stop), but `frange 10 0 (-3)` yields nothing: the loop guard is
`r < stop` regardless of the step's sign. -/
theorem claim_C2_counterexample :
    frange 10 0 (-3) = [] ∧ (0 : ℚ) < 10 := by
  constructor
  · unfold frange frangeFuel
    simp only [frangeAux]
    rw [if_neg (by norm_num : ¬ ((10 : ℚ) < 0))]
  · decide

/-- Claim C2 (amended): for step < 0 `frange` does not descend; because the
update `r -= step` adds |step| while the guard stays `r < stop`, it behaves
exactly as it does for step |step|: it yields start and then repeatedly adds
|step| while the value stays strictly below stop, ascending throughout. -/
theorem claim_C2_frange_neg (start stop step : ℚ) (hstep : step < 0) :
    frange start stop step = frange start stop (-step)
    ∧ List.Chain' (· < ·) (frange start stop step) := by
  have h := frange_neg_eq_abs start stop step hstep
  refine ⟨h, ?_⟩
  rw [h]
  exact frange_pos_chain start stop (-step) (neg_pos.mpr hstep)

/-- Witness for the amended claim C2 at `frange(0, 9, -3)`. -/
theorem claim_C2_frange_neg_witness :
    (-3 : ℚ) < 0
    ∧ (frange 0 9 (-3) = frange 0 9 (-(-3))
        ∧ List.Chain' (· < ·) (frange 0 9 (-3))) :=
  ⟨by decide, claim_C2_frange_neg 0 9 (-3) (by decide)⟩

/-- Claim C3: `create_route_by_length` gives every route the measure
endpoints from_measure = 0 and to_measure = the line's total 2D geometric
length (`SHAPE@LENGTH`), and the result is unchanged by any pre-existing
measure attribute of the input: the measures are derived solely from
geometry length. -/
theorem claim_C3_route_measures (in_features : List LineFeature) :
    create_route_by_length in_features
      = in_features.map (fun f => ⟨f.route_id, 0, f.shape_length⟩)
    ∧ ∀ (f : LineFeature) (m₁ m₂ : ℚ),
        create_route_by_length [{ f with m_first := m₁, m_last := m₂ }]
          = create_route_by_length [f] := by
  constructor
  · simp [create_route_by_length, lr_CreateRoutes, update_measure_row]
  · intro f m₁ m₂
    rfl

/-- Claim C4: the cross-section builder emits, for each station in
(route_id, measure) order, the ordered three-point polyline
[from_point, mid_point, to_point] with distance = width/2,
from = mid + distance·(cos, sin)(radians(angle)) and
to = mid − distance·(cos, sin)(radians(angle)); the station midpoint is
preserved as the explicit middle vertex of the geometry. -/
theorem claim_C4_cross_section (w : ℝ) (stations : List StationRow) :
    create_cross_section w stations
      = (sortStations stations).map (fun s =>
          { geometry := [(s.x + w / 2 * Real.cos (radians s.loc_angle),
                          s.y + w / 2 * Real.sin (radians s.loc_angle)),
                         (s.x, s.y),
                         (s.x - w / 2 * Real.cos (radians s.loc_angle),
                          s.y - w / 2 * Real.sin (radians s.loc_angle))],
            route_id := s.route_id, measure := s.measure })
    ∧ ∀ r ∈ create_cross_section w stations, ∃ s ∈ stations,
        r.geometry[1]? = some (s.x, s.y)
        ∧ r.route_id = s.route_id ∧ r.measure = s.measure := by
  constructor
  · rfl
  · intro r hr
    obtain ⟨s, hs, rfl⟩ := List.mem_map.mp hr
    exact ⟨s, (sortStations_perm stations).mem_iff.mp hs, rfl, rfl, rfl⟩

/-- Claim C5: for a positive interval, every measure in the event table
produced by `create_point_event_table` lies in the half-open range
[first_measure, last_measure) of the route row it was generated from. -/
theorem claim_C5_measure_bounds (in_routes : RouteDataset) (name : String)
    (interval : ℚ) (hpos : 0 < interval) (tbl : EventTable)
    (htbl : create_point_event_table in_routes name interval = Except.ok tbl) :
    ∀ p ∈ tbl.rows, ∃ row ∈ in_routes.rows,
      p.1 = row.route_id ∧ row.firstM ≤ p.2 ∧ p.2 < row.lastM := by
  rcases hgf : get_field in_routes.fields name with e | f
  · simp [create_point_event_table, hgf] at htbl
  · simp only [create_point_event_table, hgf] at htbl
    split at htbl
    · injection htbl with h
      subst h
      intro p hp
      simp only [List.mem_flatMap, List.mem_map] at hp
      obtain ⟨row, hrow, m, hm, rfl⟩ := hp
      obtain ⟨h1, h2⟩ := frange_pos_lower hpos hm
      exact ⟨row, hrow, rfl, h1, h2⟩
    · exact absurd htbl (by simp)

/-- Witness for claim C5 on the sample route dataset at interval 3. -/
theorem claim_C5_measure_bounds_witness :
    (0 : ℚ) < 3
    ∧ create_point_event_table sampleRoutes "RID" 3 = Except.ok sampleEventTable
    ∧ (∀ p ∈ sampleEventTable.rows, ∃ row ∈ sampleRoutes.rows,
        p.1 = row.route_id ∧ row.firstM ≤ p.2 ∧ p.2 < row.lastM) :=
  ⟨by decide,
   by simp [create_point_event_table, get_field, sampleRoutes, sampleEventTable,
     frange_zero_nine_three, pyIn, pyInAux],
   claim_C5_measure_bounds sampleRoutes "RID" 3 (by decide) sampleEventTable
     (by simp [create_point_event_table, get_field, sampleRoutes, sampleEventTable,
       frange_zero_nine_three, pyIn, pyInAux])⟩

/-- Claim C6 counterexample: neither operation validates its numeric
parameter.  With the negative interval -3, `create_point_event_table`
succeeds and produces event rows instead of raising any error, and with the
negative width -10, `create_cross_section` emits a cross-section row for the
station instead of raising any error. -/
theorem claim_C6_counterexample :
    (∃ tbl : EventTable,
        create_point_event_table sampleRoutes "RID" (-3) = Except.ok tbl
        ∧ tbl.rows = [("A", 0), ("A", 3), ("A", 6)])
    ∧ (create_cross_section (-10) [sampleStation]).length = 1 := by
  constructor
  · refine ⟨_, rfl, ?_⟩
    simp [sampleRoutes, frange_zero_nine_negthree]
  · rfl

/-- Claim C6 (amended): no parameter validation exists.
`create_point_event_table` with a negative interval behaves exactly as with
its absolute value (no InvalidIntervalError is raised), and
`create_cross_section` emits one row per station for every width, including
widths ≤ 0 (no InvalidWidthError is raised). -/
theorem claim_C6_no_validation (in_routes : RouteDataset) (name : String)
    (interval : ℚ) (hneg : interval < 0) :
    create_point_event_table in_routes name interval
      = create_point_event_table in_routes name (-interval)
    ∧ ∀ (w : ℝ) (stations : List StationRow),
        (create_cross_section w stations).length = stations.length := by
  constructor
  · unfold create_point_event_table
    cases hgf : get_field in_routes.fields name with
    | error e => rfl
    | ok f =>
      have hrows : ∀ row : RouteRow,
          frange row.firstM row.lastM interval
            = frange row.firstM row.lastM (-interval) :=
        fun row => frange_neg_eq_abs _ _ _ hneg
      simp only [hrows]
  · intro w stations
    unfold create_cross_section
    rw [List.length_map, sortStations_length]

/-- Witness for the amended claim C6 at interval -3 on the sample data. -/
theorem claim_C6_no_validation_witness :
    (-3 : ℚ) < 0
    ∧ (create_point_event_table sampleRoutes "RID" (-3)
          = create_point_event_table sampleRoutes "RID" (-(-3))
        ∧ ∀ (w : ℝ) (stations : List StationRow),
            (create_cross_section w stations).length = stations.length) :=
  ⟨by decide, claim_C6_no_validation sampleRoutes "RID" (-3) (by decide)⟩

/-- Claim C7 counterexample: a two-part line feature is not rejected:
`create_route_by_length` processes it like any other feature and produces a
route measured from 0 to the combined length of both parts. -/
theorem claim_C7_counterexample :
    multipartFeature.part_count = 2
    ∧ create_route_by_length [multipartFeature] = [⟨"A", 0, 7⟩] :=
  ⟨rfl, rfl⟩

/-- Claim C7 (amended): `create_route_by_length` performs no multi-part
detection and raises no MultiPartGeometryError: a multi-part input line is
processed like any single-part line, yielding from_measure = 0 and
to_measure = the feature's total `SHAPE@LENGTH` over all parts.  (The
restriction to single-part lines is documentation only.) -/
theorem claim_C7_multipart_processed (f : LineFeature)
    (_hmp : 2 ≤ f.part_count) :
    create_route_by_length [f] = [⟨f.route_id, 0, f.shape_length⟩] :=
  rfl

/-- Witness for the amended claim C7 at the two-part sample feature. -/
theorem claim_C7_multipart_processed_witness :
    2 ≤ multipartFeature.part_count
    ∧ create_route_by_length [multipartFeature]
        = [⟨multipartFeature.route_id, 0, multipartFeature.shape_length⟩] :=
  ⟨by decide, claim_C7_multipart_processed multipartFeature (by decide)⟩

/-- Claim C8 counterexample: requesting the unknown name `IDX` on a dataset
whose only field is `ID` does make the operation fail, but not as the claim
states: `get_field` silently resolves the substring match `ID`, the output
table and its fields are then created, and only afterwards does the
SearchCursor on the literal name raise a bare RuntimeError - so the failure
is not a ConfigurationError, is not surfaced from a pre-I/O check, and does
not abort before I/O. -/
theorem claim_C8_counterexample :
    (∀ f ∈ unknownFieldDS.fields, f.name ≠ "IDX")
    ∧ create_point_event_table unknownFieldDS "IDX" 5
        = Except.error "RuntimeError: A column was specified that does not exist"
    ∧ (create_point_event_table_run unknownFieldDS "IDX" "out_table").2 = false
    ∧ GPOp.createTable "out_table"
        ∈ (create_point_event_table_run unknownFieldDS "IDX" "out_table").1 := by
  refine ⟨by decide, rfl, rfl, by decide⟩

/-- Claim C8 (amended): an unknown or missing route-identifier field name
does make `create_point_event_table` fail, but neither before all I/O nor
as a ConfigurationError: when no field's name is a substring of the
requested name, `get_field` raises a bare IndexError before anything is
created; when some field's name is a substring but the requested name is
not exactly a field of the input, `get_field` silently resolves to that
field, the output table and its fields are created, and only then does the
SearchCursor on the literal requested name raise a RuntimeError.  The
operation succeeds exactly when the requested name is exactly the name of
an input field. -/
theorem claim_C8_unknown_field_behaviour (in_routes : RouteDataset)
    (name : String) (interval : ℚ) (out_table : String) :
    ((∃ tbl, create_point_event_table in_routes name interval = Except.ok tbl)
        ↔ ∃ f ∈ in_routes.fields, f.name = name)
    ∧ (create_point_event_table in_routes name interval
          = Except.error "IndexError: list index out of range"
        ↔ ∀ f ∈ in_routes.fields, pyIn f.name name = false)
    ∧ (create_point_event_table in_routes name interval
          = Except.error "RuntimeError: A column was specified that does not exist"
        ↔ ((∃ f ∈ in_routes.fields, pyIn f.name name = true)
            ∧ ∀ f ∈ in_routes.fields, f.name ≠ name))
    ∧ (GPOp.createTable out_table
          ∈ (create_point_event_table_run in_routes name out_table).1
        ↔ ∃ f ∈ in_routes.fields, pyIn f.name name = true)
    ∧ ((create_point_event_table_run in_routes name out_table).2 = true
        ↔ ∃ f ∈ in_routes.fields, f.name = name) := by
  rcases hgf : get_field in_routes.fields name with e | fld
  · obtain ⟨rfl, hnosub⟩ := get_field_error_msg hgf
    have hnoex : ¬ ∃ f ∈ in_routes.fields, f.name = name := by
      intro hex
      obtain ⟨f, hf, hp⟩ := exact_match_pyIn hex
      rw [hnosub f hf] at hp
      cases hp
    have hval : create_point_event_table in_routes name interval
        = Except.error "IndexError: list index out of range" := by
      simp [create_point_event_table, hgf]
    have hrun : create_point_event_table_run in_routes name out_table
        = ([], false) := by
      simp [create_point_event_table_run, hgf]
    rw [hval, hrun]
    refine ⟨?_, ?_, ?_, ?_, ?_⟩
    · constructor
      · rintro ⟨tbl, htbl⟩
        exact absurd htbl (by simp)
      · intro hex
        exact absurd hex hnoex
    · exact ⟨fun _ => hnosub, fun _ => rfl⟩
    · constructor
      · intro h
        injection h with h'
        exact absurd h' (by decide)
      · rintro ⟨⟨f, hf, hp⟩, _⟩
        rw [hnosub f hf] at hp
        cases hp
    · constructor
      · intro h
        exact absurd h (List.not_mem_nil _)
      · rintro ⟨f, hf, hp⟩
        rw [hnosub f hf] at hp
        cases hp
    · constructor
      · intro h
        exact absurd h (by simp)
      · intro hex
        exact absurd hex hnoex
  · have hsub : ∃ f ∈ in_routes.fields, pyIn f.name name = true :=
      get_field_ok_sub hgf
    by_cases hex : ∃ f ∈ in_routes.fields, f.name = name
    · have hany : in_routes.fields.any (fun f => f.name == name) = true :=
        (any_name_beq_iff _ _).mpr hex
      have hval : create_point_event_table in_routes name interval
          = Except.ok
              ⟨[⟨name, fld.type, fld.length⟩, ⟨"Measure", "DOUBLE", 0⟩],
               in_routes.rows.flatMap (fun row =>
                 (frange row.firstM row.lastM interval).map
                   (fun measure => (row.route_id, measure)))⟩ := by
        simp [create_point_event_table, hgf, hany]
      have hrun : create_point_event_table_run in_routes name out_table
          = ([GPOp.createTable out_table, GPOp.addField out_table name,
              GPOp.addField out_table "Measure",
              GPOp.addEventRows out_table], true) := by
        simp [create_point_event_table_run, hgf, hany]
      rw [hval, hrun]
      refine ⟨?_, ?_, ?_, ?_, ?_⟩
      · exact ⟨fun _ => hex, fun _ => ⟨_, rfl⟩⟩
      · constructor
        · intro h
          exact absurd h (by simp)
        · intro hall
          obtain ⟨f, hf, hp⟩ := hsub
          rw [hall f hf] at hp
          cases hp
      · constructor
        · intro h
          exact absurd h (by simp)
        · rintro ⟨_, hne⟩
          obtain ⟨f, hf, he⟩ := hex
          exact absurd he (hne f hf)
      · exact ⟨fun _ => hsub, fun _ => by simp⟩
      · exact ⟨fun _ => hex, fun _ => rfl⟩
    · have hany : in_routes.fields.any (fun f => f.name == name) = false := by
        cases hb : in_routes.fields.any (fun f => f.name == name) with
        | false => rfl
        | true => exact absurd ((any_name_beq_iff _ _).mp hb) hex
      have hval : create_point_event_table in_routes name interval
          = Except.error "RuntimeError: A column was specified that does not exist" := by
        simp [create_point_event_table, hgf, hany]
      have hrun : create_point_event_table_run in_routes name out_table
          = ([GPOp.createTable out_table, GPOp.addField out_table name,
              GPOp.addField out_table "Measure"], false) := by
        simp [create_point_event_table_run, hgf, hany]
      rw [hval, hrun]
      refine ⟨?_, ?_, ?_, ?_, ?_⟩
      · constructor
        · rintro ⟨tbl, htbl⟩
          exact absurd htbl (by simp)
        · intro hex'
          exact absurd hex' hex
      · constructor
        · intro h
          injection h with h'
          exact absurd h' (by decide)
        · intro hall
          obtain ⟨f, hf, hp⟩ := hsub
          rw [hall f hf] at hp
          cases hp
      · exact ⟨fun _ => ⟨hsub, fun f hf he => hex ⟨f, hf, he⟩⟩, fun _ => rfl⟩
      · exact ⟨fun _ => hsub, fun _ => by simp⟩
      · constructor
        · intro h
          exact absurd h (by simp)
        · intro hex'
          exact absurd hex' hex

/-- Claim C9 counterexample: cleanup is not unconditional.  On a successful
run, `StationPointsAndCrossSections.execute` never deletes its in-memory
event table, and when the engine's CreateRoutes call fails,
`create_route_by_length` does not delete its in-memory line copy (there is
no try/finally). -/
theorem claim_C9_counterexample :
    GPOp.delete eventTableName ∉
        stationPointsAndCrossSections_execute_trace
          "lines" "RID" "out_route" "out_points" "out_xsection"
    ∧ (create_route_by_length_trace "lines" "out_route" false).2 = false
    ∧ GPOp.delete theLineName ∉
        (create_route_by_length_trace "lines" "out_route" false).1 := by
  refine ⟨by decide, rfl, by decide⟩

/-- Claim C9 (amended): `create_route_by_length` deletes its in-memory line
copy exactly when the CreateRoutes engine call succeeds (an engine error
leaks it, as there is no try/finally), and the
StationPointsAndCrossSections pipeline never deletes its in-memory event
table on any run. -/
theorem claim_C9_cleanup_paths (in_features out_route : String) (ok : Bool) :
    (GPOp.delete theLineName
        ∈ (create_route_by_length_trace in_features out_route ok).1
      ↔ ok = true)
    ∧ ∀ (a b c d e : String),
        GPOp.delete eventTableName ∉
          stationPointsAndCrossSections_execute_trace a b c d e := by
  have hne : eventTableName ≠ theLineName := by decide
  constructor
  · cases ok <;>
      simp [create_route_by_length_trace]
  · intro a b c d e
    simp [stationPointsAndCrossSections_execute_trace,
      create_route_by_length_trace, create_point_event_table_trace,
      create_cross_section_trace, hne]

/-- Witness for the amended claim C9 on both branches of the CreateRoutes
outcome. -/
theorem claim_C9_cleanup_paths_witness :
    ((GPOp.delete theLineName
        ∈ (create_route_by_length_trace "lines" "r" true).1
      ↔ true = true)
    ∧ ∀ (a b c d e : String),
        GPOp.delete eventTableName ∉
          stationPointsAndCrossSections_execute_trace a b c d e) :=
  claim_C9_cleanup_paths "lines" "r" true

/-- Claim C10: `get_field` returns the first field in the dataset's field
order whose name is a contiguous substring of the requested name (so it can
return a field other than the one literally named), and it raises IndexError
exactly when no field's name is a substring of the requested name. -/
theorem claim_C10_get_field (dataset_fields : List FieldDesc) (name : String) :
    (get_field dataset_fields name
      = match dataset_fields.find? (fun f => pyIn f.name name) with
        | some f => Except.ok f
        | none => Except.error "IndexError: list index out of range")
    ∧ ((∃ e, get_field dataset_fields name = Except.error e)
        ↔ ∀ f ∈ dataset_fields, pyIn f.name name = false) := by
  refine ⟨get_field_eq_find _ _, ?_⟩
  rw [get_field_eq_find]
  cases hf : dataset_fields.find? (fun f => pyIn f.name name) with
  | none =>
    simp only [List.find?_eq_none] at hf
    constructor
    · intro _ f hfmem
      simpa using hf f hfmem
    · intro _
      exact ⟨_, rfl⟩
  | some f =>
    have h1 : pyIn f.name name = true := by
      have := List.find?_some hf
      simpa using this
    have h2 : f ∈ dataset_fields := List.mem_of_find?_eq_some hf
    constructor
    · rintro ⟨e, he⟩
      exact absurd he (by simp)
    · intro hall
      rw [hall f h2] at h1
      cases h1

end ALRT
